import Mathlib

/-!
Shallow embedding of `devices/timer.c` (8254 timer driver of a Pintos-derived
kernel): tick counter, interrupt cadence controller, loop calibration,
time-conversion and sleep dispatch.

Conventions of the embedding:
* `int64_t` values are modelled as `ℤ` (the tick counter and sleep arguments
  never approach the 2^63 wrap in any reachable execution, so signed overflow
  is not modelled); `unsigned` (32-bit) arithmetic that can wrap — the
  doubling of `loops_per_tick` in `timer_calibrate` — is taken `% 2^32`
  explicitly.
* C `/` and `%` on signed operands truncate toward zero: they are `Int.tdiv`
  and `Int.tmod`.  Tests of the form `x % d == 0` are written with Lean's
  `%` (`Int.emod`), which agrees with C's `%` on zero-tests
  (`x tmod d = 0 ↔ d ∣ x ↔ x emod d = 0`).
* Calls to external collaborator hooks (`thread_tick`, `mlfqs_*`,
  `thread_awake`, `thread_sleep`) are recorded as events; the hooks' own
  behaviour is outside this fragment.
* `too_many_loops` measures real elapsed time against the hardware tick and
  its result is timing-dependent; it enters the model as an uninterpreted
  oracle `tml : ℕ → Bool` giving the result of `too_many_loops loops`.
* A fatal `ASSERT` failure is modelled as the distinguished `fatal`/`none`
  outcome of the function concerned.
-/

namespace Timer

/-- Events emitted by one run of the interrupt handler `timer_interrupt`:
calls to `thread_tick`, `mlfqs_increment`, `mlfqs_priority (thread_current)`,
`mlfqs_load_avg`, `mlfqs_recalc`, and `thread_awake t`, in emission order. -/
inductive Ev where
  | tick_acct
  | fb_inc
  | fb_prio
  | fb_loadavg
  | fb_recalc
  | awake (t : ℤ)
deriving DecidableEq, Repr

/-- `static int64_t ticks;` — zero-initialised at boot. -/
def ticks_init : ℤ := 0

/-- `timer_ticks ()`: returns the tick counter (read under disabled
interrupts; the disable/restore/barrier dance has no effect on the value). -/
def timer_ticks (s : ℤ) : ℤ := s

/-- `timer_elapsed (then)`: `timer_ticks () - then`. -/
def timer_elapsed (s t0 : ℤ) : ℤ := timer_ticks s - t0

/-- `timer_interrupt`, parametrised by `TIMER_FREQ` (`F`), the
`thread_mlfqs` flag and the pre-interrupt tick counter `s`.  Returns the new
counter value and the ordered list of hook invocations:

    ticks++;
    thread_tick ();
    if (thread_mlfqs) {
      mlfqs_increment ();
      if (timer_ticks () % 4 == 0) {
        mlfqs_priority (thread_current ());
        if (timer_ticks () % TIMER_FREQ == 0) {
          mlfqs_load_avg ();
          mlfqs_recalc ();
        }
      }
    }
    thread_awake (ticks);

(`timer_ticks ()` inside the handler reads the already-incremented
counter.) -/
def timer_interrupt (F : ℤ) (mlfqs : Bool) (s : ℤ) : ℤ × List Ev :=
  let t := s + 1
  (t, Ev.tick_acct ::
      ((if mlfqs then
          Ev.fb_inc ::
          (if t % 4 = 0 then
            Ev.fb_prio ::
            (if t % F = 0 then [Ev.fb_loadavg, Ev.fb_recalc] else [])
          else [])
        else []) ++ [Ev.awake t]))

/-- The hook invocations of the handler run whose post-increment tick value
is `t` (i.e. the run that took the counter from `t - 1` to `t`). -/
def tickEvents (F : ℤ) (mlfqs : Bool) (t : ℤ) : List Ev :=
  (timer_interrupt F mlfqs (t - 1)).2

/-- Operations of this core that can touch the tick counter. -/
inductive Op where
  | interrupt (F : ℤ) (mlfqs : Bool)
  | ticksRead
  | elapsed (t0 : ℤ)
  | sleep (n : ℤ)
  | msleep (n : ℤ)
  | usleep (n : ℤ)
  | nsleep (n : ℤ)
  | calibrate
  | initOp
  | printStats

/-- Effect of one operation on the tick counter: only `timer_interrupt`
writes it; every other operation of the core reads it at most. -/
def tickStep (s : ℤ) : Op → ℤ
  | .interrupt F m => (timer_interrupt F m s).1
  | _ => s

/-- Tick counter after running a sequence of operations from state `s`. -/
def runOps (s : ℤ) (ops : List Op) : ℤ := ops.foldl tickStep s

/-- Outcome of a sleep entry point: a fatal assertion, or a wake-time
registration handed to `thread_sleep`. -/
inductive SleepEv where
  | fatal
  | register (wake : ℤ)
deriving DecidableEq, Repr

/-- `timer_sleep (ticks)` (sleep-wakeup version in force in the source):

    int64_t start = timer_ticks ();
    thread_sleep (start + ticks);

It performs no interrupt-level assertion (the `ASSERT (intr_get_level () ==
INTR_ON)` appears only inside the commented-out busy-waiting variant), so
`intrOn` is accepted but never checked. -/
def timer_sleep (intrOn : Bool) (s : ℤ) (n : ℤ) : List SleepEv :=
  [SleepEv.register (timer_ticks s + n)]

/-- `busy_wait (loops)`: `while (loops-- > 0) barrier ();` — returns the
number of loop iterations performed. -/
def busy_wait (loops : ℤ) : ℕ :=
  if 0 < loops then busy_wait (loops - 1) + 1 else 0
termination_by loops.toNat
decreasing_by omega

/-- Outcome of `real_time_sleep`: fatal assertion, delegation to
`timer_sleep` with a tick count, or a busy wait with a loop count. -/
inductive RTSAct where
  | fatal
  | sleepTicks (t : ℤ)
  | wait (loops : ℤ)
deriving DecidableEq, Repr

/-- `real_time_sleep (num, denom)`:

    int64_t ticks = num * TIMER_FREQ / denom;
    ASSERT (intr_get_level () == INTR_ON);
    if (ticks > 0) timer_sleep (ticks);
    else { ASSERT (denom % 1000 == 0);
           busy_wait (loops_per_tick * num / 1000 * TIMER_FREQ / (denom / 1000)); }

All divisions are C signed divisions (truncation toward zero, `Int.tdiv`);
`denom % 1000 == 0` is a zero-test, written with `Int.emod`. -/
def real_time_sleep (F lpt : ℤ) (intrOn : Bool) (num denom : ℤ) : RTSAct :=
  let ticks := Int.tdiv (num * F) denom
  if intrOn = false then .fatal
  else if 0 < ticks then .sleepTicks ticks
  else if ¬ (denom % 1000 = 0) then .fatal
  else .wait (Int.tdiv (Int.tdiv (lpt * num) 1000 * F) (Int.tdiv denom 1000))

/-- `timer_msleep (ms)` = `real_time_sleep (ms, 1000)`. -/
def timer_msleep (F lpt : ℤ) (intrOn : Bool) (ms : ℤ) : RTSAct :=
  real_time_sleep F lpt intrOn ms 1000

/-- `timer_usleep (us)` = `real_time_sleep (us, 1000 * 1000)`. -/
def timer_usleep (F lpt : ℤ) (intrOn : Bool) (us : ℤ) : RTSAct :=
  real_time_sleep F lpt intrOn us (1000 * 1000)

/-- `timer_nsleep (ns)` = `real_time_sleep (ns, 1000 * 1000 * 1000)`. -/
def timer_nsleep (F lpt : ℤ) (intrOn : Bool) (ns : ℤ) : RTSAct :=
  real_time_sleep F lpt intrOn ns (1000 * 1000 * 1000)

/-- The divisor `timer_init` computes before the `uint16_t` assignment:
`(1193180 + TIMER_FREQ / 2) / TIMER_FREQ` in (non-negative) `int`
arithmetic. -/
def timer_init_count_raw (F : ℕ) : ℕ := (1193180 + F / 2) / F

/-- The divisor actually stored in the `uint16_t count` of `timer_init`,
including the truncation the assignment would perform. -/
def timer_init_count (F : ℕ) : ℕ := timer_init_count_raw F % 65536

/-- Doubling phase of `timer_calibrate`, on the oracle `tml` standing for
`too_many_loops`:

    while (!too_many_loops (loops_per_tick << 1)) {
      loops_per_tick <<= 1;
      ASSERT (loops_per_tick != 0);
    }

`loops_per_tick` is a 32-bit `unsigned`, so the shift wraps `% 2^32`; the
`ASSERT` firing (wrap to zero) is the `none` outcome.  `fuel` bounds the
recursion; from `2^10` the loop body can run at most 22 times before the
wrap, so any `fuel ≥ 23` is beyond reach. -/
def calibDouble (tml : ℕ → Bool) : ℕ → ℕ → Option ℕ
  | 0, _ => none
  | fuel + 1, lpt =>
    if tml ((lpt <<< 1) % 2 ^ 32) then some lpt
    else
      if (lpt <<< 1) % 2 ^ 32 = 0 then none
      else calibDouble tml fuel ((lpt <<< 1) % 2 ^ 32)

/-- Refinement phase of `timer_calibrate`:

    high_bit = loops_per_tick;
    for (test_bit = high_bit >> 1; test_bit != high_bit >> 10; test_bit >>= 1)
      if (!too_many_loops (high_bit | test_bit))
        loops_per_tick |= test_bit;

`fuel` bounds the recursion (the loop halves `test_bit`, so from
`high_bit >> 1 < 2^32` at most 32 halvings can occur before the loop
variable reaches the terminating value — or 0, where the C loop would spin
forever, which is unreachable for the power-of-two `high_bit` the doubling
phase produces). -/
def calibRefine (tml : ℕ → Bool) (hb : ℕ) : ℕ → ℕ → ℕ → ℕ
  | 0, lpt, _ => lpt
  | fuel + 1, lpt, tb =>
    if tb = hb >>> 10 then lpt
    else
      calibRefine tml hb fuel
        (if tml (hb ||| tb) then lpt else lpt ||| tb) (tb >>> 1)

/-- `timer_calibrate`: asserts interrupts enabled, starts `loops_per_tick`
at `1u << 10`, runs the doubling phase then the bit-refinement phase.
Returns the final `loops_per_tick`, or `none` on a fatal assertion. -/
def timer_calibrate (intrOn : Bool) (tml : ℕ → Bool) : Option ℕ :=
  if intrOn = false then none
  else
    match calibDouble tml 32 (1 <<< 10) with
    | none => none
    | some hb => some (calibRefine tml hb 32 hb (hb >>> 1))

/-- Refinement phase as the source actually behaves, written from the
amended description: for each of the NINE bit positions `1, …, 9` below the
high bit, keep `hb >>> j` in `loops_per_tick` exactly when running
`hb ||| (hb >>> j)` iterations still fits within one tick. -/
def calibRefineSpec (tml : ℕ → Bool) (hb : ℕ) : ℕ :=
  (List.range' 1 9).foldl
    (fun lpt j => if tml (hb ||| hb >>> j) then lpt else lpt ||| hb >>> j) hb

/-- Refinement phase as the claim literally words it ("the next 8 lower
bits"): only the EIGHT bit positions `1, …, 8` below the high bit are
tested. -/
def calibRefineSpec8 (tml : ℕ → Bool) (hb : ℕ) : ℕ :=
  (List.range' 1 8).foldl
    (fun lpt j => if tml (hb ||| hb >>> j) then lpt else lpt ||| hb >>> j) hb

/-- `timer_calibrate` as the claim literally words it: same start and
doubling phase, but an 8-bit refinement. -/
def timer_calibrate_claim8 (intrOn : Bool) (tml : ℕ → Bool) : Option ℕ :=
  if intrOn = false then none
  else
    match calibDouble tml 32 (1 <<< 10) with
    | none => none
    | some hb => some (calibRefineSpec8 tml hb)

/-- A concrete `too_many_loops` oracle: only `1026 = 1024 ||| 2` iterations
fit inside one tick.  The doubling phase then stops at once
(`too_many_loops (1024 << 1)` is true), leaving `high_bit = 1024`, and the
refinement keeps exactly the bit `1024 >> 9 = 2`. -/
def tml9 : ℕ → Bool := fun n => n != 1026

/-! ### Helper lemmas -/

/-- A window of `d * k` consecutive integers contains exactly `k` multiples
of `d` (for `d > 0`). -/
lemma card_dvd_window (d : ℤ) (hd : 0 < d) (k : ℕ) (a : ℤ) :
    ((Finset.Ico a (a + d * k)).filter (fun x => d ∣ x)).card = k := by
  have h := Int.Ico_filter_dvd_card a (a + d * k) hd
  have hcast : ((a + d * k : ℤ) : ℚ) / (d : ℚ) = (a : ℚ) / (d : ℚ) + (k : ℚ) := by
    have hd0 : (d : ℚ) ≠ 0 := by exact_mod_cast hd.ne'
    push_cast
    field_simp
    ring
  rw [hcast] at h
  have hceil : ⌈(a : ℚ) / (d : ℚ) + (k : ℚ)⌉ = ⌈(a : ℚ) / (d : ℚ)⌉ + (k : ℤ) := by
    exact_mod_cast Int.ceil_add_int ((a : ℚ) / (d : ℚ)) (k : ℤ)
  rw [hceil] at h
  omega

lemma four_mul_eq_lcm_mul_gcd (F : ℤ) (hF : 0 < F) :
    (4 : ℤ) * F = (Int.lcm 4 F : ℤ) * (Int.gcd 4 F : ℤ) := by
  have h := Int.gcd_mul_lcm 4 F
  have h2 : (Int.gcd 4 F * Int.lcm 4 F : ℤ) = ((4 * F).natAbs : ℤ) := by exact_mod_cast h
  rw [Int.natAbs_of_nonneg (by positivity)] at h2
  linarith [h2]

lemma dvd_both_iff_lcm (F t : ℤ) : (4 ∣ t ∧ F ∣ t) ↔ ((Int.lcm 4 F : ℤ) ∣ t) := by
  constructor
  · rintro ⟨h4, hF⟩
    exact Int.lcm_dvd h4 hF
  · intro h
    exact ⟨Int.dvd_lcm_left.trans h, Int.dvd_lcm_right.trans h⟩

lemma lcm_pos_int (F : ℤ) (hF : 0 < F) : (0 : ℤ) < (Int.lcm 4 F : ℤ) := by
  have h : 0 < Int.lcm 4 F := by
    rw [Int.lcm_def]
    exact Nat.lcm_pos (by decide) (Int.natAbs_pos.mpr hF.ne')
  exact_mod_cast h

lemma busy_wait_toNat : ∀ (n : ℕ) (l : ℤ), l.toNat = n → busy_wait l = n := by
  intro n
  induction n with
  | zero =>
    intro l h
    rw [busy_wait]
    have h0 : ¬ 0 < l := by omega
    simp [h0]
  | succ k ih =>
    intro l h
    rw [busy_wait]
    have h0 : 0 < l := by omega
    simp only [h0, if_true]
    rw [ih (l - 1) (by omega)]

lemma tdiv_nonpos_of_nonpos {a b : ℤ} (ha : a ≤ 0) (hb : 0 ≤ b) :
    Int.tdiv a b ≤ 0 := by
  have h1 := Int.tdiv_nonneg (a := -a) (b := b) (by omega) hb
  have h2 : Int.tdiv (-a) b = -(Int.tdiv a b) := Int.neg_tdiv a b
  omega

lemma mem_tickEvents_prio (F t : ℤ) :
    Ev.fb_prio ∈ tickEvents F true t ↔ t % 4 = 0 := by
  unfold tickEvents timer_interrupt
  simp only [sub_add_cancel]
  split_ifs with h1 h2 <;> simp_all <;> omega

lemma mem_tickEvents_loadavg (F t : ℤ) :
    Ev.fb_loadavg ∈ tickEvents F true t ↔ (t % 4 = 0 ∧ t % F = 0) := by
  unfold tickEvents timer_interrupt
  simp only [sub_add_cancel]
  split_ifs with h1 h2 <;> simp_all <;> omega

lemma mem_tickEvents_recalc (F t : ℤ) :
    Ev.fb_recalc ∈ tickEvents F true t ↔ (t % 4 = 0 ∧ t % F = 0) := by
  unfold tickEvents timer_interrupt
  simp only [sub_add_cancel]
  split_ifs with h1 h2 <;> simp_all <;> omega

lemma tickStep_le (s : ℤ) (op : Op) : s ≤ tickStep s op := by
  cases op <;> simp [tickStep, timer_interrupt] <;> omega

lemma shift_pow (j : ℕ) : (2 ^ j <<< 1) = 2 ^ (j + 1) := by
  rw [Nat.shiftLeft_eq, pow_succ]
  ring

lemma calibDouble_succ (tml : ℕ → Bool) (fuel lpt : ℕ) :
    calibDouble tml (fuel + 1) lpt =
      if tml ((lpt <<< 1) % 2 ^ 32) then some lpt
      else if (lpt <<< 1) % 2 ^ 32 = 0 then none
      else calibDouble tml fuel ((lpt <<< 1) % 2 ^ 32) := rfl

/-- The doubling phase, started on a power of two between `2^10` and
`2^31`, either hits the overflow assertion or stops on such a power of
two. -/
lemma calibDouble_pow (tml : ℕ → Bool) :
    ∀ fuel j, 10 ≤ j → j ≤ 31 → 32 - j ≤ fuel →
      calibDouble tml fuel (2 ^ j) = none ∨
      ∃ k, 10 ≤ k ∧ k ≤ 31 ∧ calibDouble tml fuel (2 ^ j) = some (2 ^ k) := by
  intro fuel
  induction fuel with
  | zero =>
    intro j h10 h31 hf
    omega
  | succ f ih =>
    intro j h10 h31 hf
    by_cases hj : j = 31
    · subst hj
      have h0 : ((2 : ℕ) ^ 31 <<< 1) % 2 ^ 32 = 0 := by
        rw [shift_pow]
        simp
      rw [calibDouble_succ, h0]
      cases h : tml 0
      · left
        simp [h]
      · right
        exact ⟨31, by omega, by omega, by simp [h]⟩
    · have hlt : j + 1 ≤ 31 := by omega
      have hmod : ((2 : ℕ) ^ j <<< 1) % 2 ^ 32 = 2 ^ (j + 1) := by
        rw [shift_pow]
        exact Nat.mod_eq_of_lt (Nat.pow_lt_pow_right (by norm_num) (by omega))
      rw [calibDouble_succ, hmod]
      cases h : tml (2 ^ (j + 1))
      · have hne : (2 : ℕ) ^ (j + 1) ≠ 0 := by positivity
        rw [if_neg (by simp [h]), if_neg hne]
        exact ih (j + 1) (by omega) hlt (by omega)
      · right
        exact ⟨j, h10, h31, by simp [h]⟩

lemma pow_shiftRight (k i : ℕ) (h : i ≤ k) : (2 : ℕ) ^ k >>> i = 2 ^ (k - i) := by
  rw [Nat.shiftRight_eq_div_pow, Nat.pow_div h (by norm_num)]

/-- On a power-of-two high bit, the source's refinement loop runs exactly
over the bit positions `10 - m, …, 9` below the high bit. -/
lemma calibRefine_eq_spec (tml : ℕ → Bool) (k : ℕ) (hk : 10 ≤ k) :
    ∀ m, m ≤ 9 → ∀ lpt fuel, m + 1 ≤ fuel →
      calibRefine tml (2 ^ k) fuel lpt (2 ^ k >>> (10 - m)) =
        (List.range' (10 - m) m).foldl
          (fun acc j => if tml (2 ^ k ||| 2 ^ k >>> j) then acc
            else acc ||| 2 ^ k >>> j)
          lpt := by
  intro m
  induction m with
  | zero =>
    intro _ lpt fuel hf
    cases fuel with
    | zero => omega
    | succ f => simp [calibRefine]
  | succ m ih =>
    intro hm lpt fuel hf
    cases fuel with
    | zero => omega
    | succ f =>
      have hi : 10 - (m + 1) ≤ k := by omega
      have hne : (2 : ℕ) ^ k >>> (10 - (m + 1)) ≠ 2 ^ k >>> 10 := by
        rw [pow_shiftRight k (10 - (m + 1)) hi, pow_shiftRight k 10 (by omega)]
        intro hcontra
        have := Nat.pow_right_injective (le_refl 2) hcontra
        omega
      have hshift : ((2 : ℕ) ^ k >>> (10 - (m + 1))) >>> 1
          = 2 ^ k >>> (10 - m) := by
        rw [← Nat.shiftRight_add]
        congr 1
        omega
      have hstep : calibRefine tml (2 ^ k) (f + 1) lpt (2 ^ k >>> (10 - (m + 1)))
          = calibRefine tml (2 ^ k) f
              (if tml (2 ^ k ||| 2 ^ k >>> (10 - (m + 1))) then lpt
               else lpt ||| 2 ^ k >>> (10 - (m + 1)))
              (2 ^ k >>> (10 - m)) := by
        rw [calibRefine]
        rw [if_neg hne, hshift]
      rw [hstep]
      rw [ih (by omega) _ f (by omega)]
      have hrange : List.range' (10 - (m + 1)) (m + 1)
          = (10 - (m + 1)) :: List.range' (10 - m) m := by
        have h1 : 10 - m = (10 - (m + 1)) + 1 := by omega
        rw [List.range'_succ, h1]
      rw [hrange]
      rfl

/-! ### Claims -/

/-- Claim C2 counterexample: `timer_sleep` called with external interrupts
disabled does not halt on an assertion — it proceeds and registers the wake
time, because the interrupt-level `ASSERT` lives only in the commented-out
busy-wait variant of `timer_sleep`. -/
theorem C2_counterexample :
    SleepEv.fatal ∉ timer_sleep false 0 5 ∧
    timer_sleep false 0 5 = [SleepEv.register 5] := by
  exact ⟨by decide, by decide⟩

/-- Claim C2 (amended): the ms/µs/ns sleep variants, which run through
`real_time_sleep`, do halt with a fatal assertion when called with
interrupts disabled; `timer_sleep` itself performs no interrupt-level check
and always proceeds to register the wake time. -/
theorem C2_amended :
    (∀ F lpt num denom, real_time_sleep F lpt false num denom = RTSAct.fatal) ∧
    (∀ F lpt ms, timer_msleep F lpt false ms = RTSAct.fatal) ∧
    (∀ F lpt us, timer_usleep F lpt false us = RTSAct.fatal) ∧
    (∀ F lpt ns, timer_nsleep F lpt false ns = RTSAct.fatal) ∧
    (∀ intrOn s n, SleepEv.fatal ∉ timer_sleep intrOn s n) := by
  refine ⟨fun F lpt num denom => rfl, fun F lpt ms => rfl, fun F lpt us => rfl,
    fun F lpt ns => rfl, ?_⟩
  intro intrOn s n
  simp [timer_sleep]

/-- Claim C4: `real_time_sleep` converts via `ticks = num * F / denom` with
C division (truncation toward zero, characterised in the first two
conjuncts); `ticks > 0` delegates to the blocking sleep with that count;
`ticks = 0` takes the busy-wait path with loop count
`lpt * num / 1000 * F / (denom / 1000)` under the fatal assertion
`denom % 1000 == 0`; and `real_time_sleep (1, 1000)` at `F = 100` takes the
busy-wait path rather than returning immediately. -/
theorem C4_real_time_sleep_conv (F lpt num denom : ℤ) (hdenom : 0 < denom) :
    (0 ≤ num * F → Int.tdiv (num * F) denom = (num * F) / denom) ∧
    (num * F ≤ 0 → Int.tdiv (num * F) denom = -((-(num * F)) / denom)) ∧
    (0 < Int.tdiv (num * F) denom →
      real_time_sleep F lpt true num denom =
        RTSAct.sleepTicks (Int.tdiv (num * F) denom)) ∧
    (Int.tdiv (num * F) denom = 0 → denom % 1000 = 0 →
      real_time_sleep F lpt true num denom =
        RTSAct.wait (Int.tdiv (Int.tdiv (lpt * num) 1000 * F) (Int.tdiv denom 1000))) ∧
    (Int.tdiv (num * F) denom = 0 → ¬ denom % 1000 = 0 →
      real_time_sleep F lpt true num denom = RTSAct.fatal) ∧
    (F = 100 → num = 1 → denom = 1000 →
      real_time_sleep F lpt true num denom =
        RTSAct.wait (Int.tdiv (Int.tdiv (lpt * 1) 1000 * 100) (Int.tdiv 1000 1000))) := by
  refine ⟨?_, ?_, ?_, ?_, ?_, ?_⟩
  · intro h
    exact Int.tdiv_eq_ediv h (by omega)
  · intro h
    have h1 : Int.tdiv (-(num * F)) denom = -(Int.tdiv (num * F) denom) :=
      Int.neg_tdiv _ _
    have h2 := Int.tdiv_eq_ediv (a := -(num * F)) (b := denom) (by omega) (by omega)
    omega
  · intro h
    simp [real_time_sleep, h]
  · intro h0 hdm
    simp [real_time_sleep, h0, hdm]
  · intro h0 hdm
    simp [real_time_sleep, h0, hdm]
  · intro hF hnum hd
    subst hF
    subst hnum
    subst hd
    have h1 : Int.tdiv ((1 : ℤ) * 100) 1000 = 0 := by decide
    have h2 : Int.tdiv ((100 : ℤ)) 1000 = 0 := by decide
    simp [real_time_sleep, h1, h2]

/-- Claim C4 witness: at `F = 100`, `lpt = 5000`, the 1 ms request takes the
busy-wait path with the scaled-loop formula (500 iterations). -/
theorem C4_real_time_sleep_conv_witness :
    real_time_sleep 100 5000 true 1 1000 =
      RTSAct.wait (Int.tdiv (Int.tdiv ((5000 : ℤ) * 1) 1000 * 100) (Int.tdiv 1000 1000)) ∧
    Int.tdiv (Int.tdiv ((5000 : ℤ) * 1) 1000 * 100) (Int.tdiv 1000 1000) = 500 :=
  ⟨(C4_real_time_sleep_conv 100 5000 1 1000 (by decide)).2.2.2.2.2 rfl rfl rfl, by decide⟩

/-- Claim C5: each handler invocation increments the tick counter by exactly
one, runs the per-tick accounting hook first, the feedback steps (if the
mlfqs flag is set) in the middle, and the sleep-queue release hook last,
passing it the already-incremented counter value. -/
theorem C5_interrupt_order (F : ℤ) (m : Bool) (s : ℤ) :
    (timer_interrupt F m s).1 = s + 1 ∧
    (timer_interrupt F m s).2.head? = some Ev.tick_acct ∧
    (timer_interrupt F m s).2.getLast? = some (Ev.awake (s + 1)) ∧
    (∀ t, Ev.awake t ∈ (timer_interrupt F m s).2 → t = s + 1) ∧
    (m = false → (timer_interrupt F m s).2 = [Ev.tick_acct, Ev.awake (s + 1)]) ∧
    (m = true → (timer_interrupt F m s).2.get? 1 = some Ev.fb_inc) := by
  refine ⟨rfl, rfl, ?_, ?_, ?_, ?_⟩
  · unfold timer_interrupt
    simp [List.getLast?_cons, List.getLast?_concat]
  · intro t ht
    unfold timer_interrupt at ht
    cases m <;> simp_all <;> split_ifs at ht <;> simp_all
  · intro hm
    subst hm
    rfl
  · intro hm
    subst hm
    rfl

/-- Claim C5 witness at a concrete tick. -/
theorem C5_interrupt_order_witness :
    (timer_interrupt 100 true 41).1 = 41 + 1 ∧
    (timer_interrupt 100 true 41).2.get? 1 = some Ev.fb_inc :=
  ⟨(C5_interrupt_order 100 true 41).1, (C5_interrupt_order 100 true 41).2.2.2.2.2 rfl⟩

/-- Claim C6: `timer_sleep n` reads the current tick `c` and registers
exactly one wakeup, with wake time exactly `c + n`; for `n = 0` the
registered wake time equals the current tick, never a past tick. -/
theorem C6_sleep_wake_time (intrOn : Bool) (s n : ℤ) :
    timer_sleep intrOn s n = [SleepEv.register (timer_ticks s + n)] ∧
    (∀ w, SleepEv.register w ∈ timer_sleep intrOn s n → w = s + n) ∧
    timer_sleep intrOn s 0 = [SleepEv.register s] ∧
    (∀ w, SleepEv.register w ∈ timer_sleep intrOn s 0 → ¬ w < s) := by
  refine ⟨rfl, ?_, by simp [timer_sleep, timer_ticks], ?_⟩
  · intro w hw
    simp [timer_sleep, timer_ticks] at hw
    exact hw
  · intro w hw
    simp [timer_sleep, timer_ticks] at hw
    omega

/-- Claim C6 witness: a concrete call registers exactly its wake time. -/
theorem C6_sleep_wake_time_witness :
    timer_sleep true 5 3 = [SleepEv.register (timer_ticks 5 + 3)] ∧ (8 : ℤ) = 5 + 3 :=
  ⟨(C6_sleep_wake_time true 5 3).1, (C6_sleep_wake_time true 5 3).2.1 8 (by decide)⟩

/-- Claim C7 counterexample: a negative sleep duration does not halt: the
blocking sleep registers a past wake time and `real_time_sleep` with a
negative value takes the busy-wait branch with a negative loop count. -/
theorem C7_counterexample :
    timer_sleep true 10 (-5) = [SleepEv.register 5] ∧
    SleepEv.fatal ∉ timer_sleep true 10 (-5) ∧
    real_time_sleep 100 1000 true (-7) 1000 = RTSAct.wait (-700) ∧
    real_time_sleep 100 1000 true (-7) 1000 ≠ RTSAct.fatal := by
  decide

/-- Claim C7 (amended): negative durations are not checked anywhere:
`timer_sleep` silently registers a past wake time, and `real_time_sleep`
with a negative value computes a non-positive tick count, takes the
busy-wait branch (no fatal assertion when `denom % 1000 == 0` holds, as it
does for all three public callers) with a non-positive loop count, so
`busy_wait` performs zero iterations. -/
theorem C7_amended (now n num denom F lpt : ℤ) (hn : n < 0) (hnum : num < 0)
    (hF : 0 < F) (hdenom : 0 < denom) (hdm : denom % 1000 = 0) (hlpt : 0 ≤ lpt) :
    (timer_sleep true now n = [SleepEv.register (now + n)] ∧ now + n < now) ∧
    ∃ l, real_time_sleep F lpt true num denom = RTSAct.wait l ∧ l ≤ 0 ∧
      busy_wait l = 0 := by
  constructor
  · exact ⟨rfl, by omega⟩
  · have hticks : Int.tdiv (num * F) denom ≤ 0 :=
      tdiv_nonpos_of_nonpos (by nlinarith) (by omega)
    have h1 : lpt * num ≤ 0 := by nlinarith
    have h2 : Int.tdiv (lpt * num) 1000 ≤ 0 :=
      tdiv_nonpos_of_nonpos h1 (by omega)
    have h3 : Int.tdiv (lpt * num) 1000 * F ≤ 0 := by nlinarith
    have h4 : Int.tdiv (Int.tdiv (lpt * num) 1000 * F) (Int.tdiv denom 1000) ≤ 0 :=
      tdiv_nonpos_of_nonpos h3 (Int.tdiv_nonneg (by omega) (by omega))
    refine ⟨Int.tdiv (Int.tdiv (lpt * num) 1000 * F) (Int.tdiv denom 1000), ?_, h4, ?_⟩
    · simp [real_time_sleep, hdm]
      omega
    · exact busy_wait_toNat 0 _ (by omega)

/-- Claim C7 amended witness at concrete negative durations. -/
theorem C7_amended_witness :
    (timer_sleep true 10 (-5) = [SleepEv.register (10 + -5)] ∧ (10 : ℤ) + -5 < 10) ∧
    ∃ l, real_time_sleep 100 1000 true (-7) 1000 = RTSAct.wait l ∧ l ≤ 0 ∧
      busy_wait l = 0 :=
  C7_amended 10 (-5) (-7) 1000 100 1000 (by decide) (by decide) (by decide)
    (by decide) (by decide) (by decide)

/-- Claim C8: the tick counter starts at zero, the interrupt handler is its
only writer and adds exactly one per invocation, every other operation of
the core leaves it unchanged (`timer_ticks` / `timer_elapsed` only read
it), and across any sequence of operations it is monotonically
non-decreasing. -/
theorem C8_tick_counter :
    ticks_init = 0 ∧
    (∀ F m s, tickStep s (Op.interrupt F m) = s + 1) ∧
    (∀ s t0 n, tickStep s Op.ticksRead = s ∧ tickStep s (Op.elapsed t0) = s ∧
      tickStep s (Op.sleep n) = s ∧ tickStep s Op.calibrate = s ∧
      tickStep s Op.initOp = s) ∧
    (∀ s op, tickStep s op = s ∨ tickStep s op = s + 1) ∧
    (∀ s op, s ≤ tickStep s op) ∧
    (∀ ops s, s ≤ runOps s ops) ∧
    (∀ s t0, timer_ticks s = s ∧ timer_elapsed s t0 = s - t0) := by
  refine ⟨rfl, fun F m s => rfl, fun s t0 n => ⟨rfl, rfl, rfl, rfl, rfl⟩, ?_, tickStep_le,
    ?_, fun s t0 => ⟨rfl, rfl⟩⟩
  · intro s op
    cases op <;> simp [tickStep, timer_interrupt]
  · intro ops
    induction ops with
    | nil => intro s; simp [runOps]
    | cons op rest ih =>
      intro s
      have h1 : runOps s (op :: rest) = runOps (tickStep s op) rest := rfl
      rw [h1]
      exact le_trans (tickStep_le s op) (ih (tickStep s op))

/-- Claim C9: for every target frequency in [19, 1000], the divisor
`(1193180 + F/2) / F` that `timer_init` programs is a nearest integer to
`1193180 / F` (distance at most half the divisor) and fits in the 16-bit
`count` without truncation. -/
theorem C9_init_divisor (F : ℕ) (h19 : 19 ≤ F) (h1000 : F ≤ 1000) :
    timer_init_count F = timer_init_count_raw F ∧
    timer_init_count_raw F < 65536 ∧
    2 * ((1193180 : ℤ) - (timer_init_count_raw F : ℤ) * (F : ℤ)).natAbs ≤ F := by
  have H : ∀ G : ℕ, G < 1001 → 19 ≤ G →
      ((1193180 + G / 2) / G % 65536 = (1193180 + G / 2) / G ∧
       (1193180 + G / 2) / G < 65536 ∧
       2 * ((1193180 : ℤ) - (((1193180 + G / 2) / G : ℕ) : ℤ) * (G : ℤ)).natAbs ≤ G) := by
    set_option maxRecDepth 40000 in decide
  exact H F (by omega) h19

/-- Claim C9 witness: at the default frequency 100 the divisor is 11932. -/
theorem C9_init_divisor_witness :
    timer_init_count 100 = timer_init_count_raw 100 ∧ timer_init_count 100 = 11932 :=
  ⟨(C9_init_divisor 100 (by decide) (by decide)).1, by decide⟩

/-- Claim C10: `busy_wait` terminates on every `int64` argument, performing
exactly `max(loops, 0)` iterations — zero when the argument is zero or
negative. -/
theorem C10_busy_wait_iterations (l : ℤ) :
    busy_wait l = (max l 0).toNat ∧ (l ≤ 0 → busy_wait l = 0) := by
  have h := busy_wait_toNat l.toNat l rfl
  constructor
  · rw [h]
    omega
  · intro hl
    rw [h]
    omega

/-- Claim C10 witness: zero iterations for a negative count, seven for 7. -/
theorem C10_busy_wait_iterations_witness :
    busy_wait (-5) = 0 ∧ busy_wait 7 = (max (7 : ℤ) 0).toNat :=
  ⟨(C10_busy_wait_iterations (-5)).2 (by decide), (C10_busy_wait_iterations 7).1⟩

set_option maxHeartbeats 1000000 in
/-- Claim C1 counterexample: the two modulo conditions are nested, not
independent.  At `TIMER_FREQ = 19`, tick 19 satisfies `t % 19 == 0` yet the
load-average hook does not fire (19 % 4 ≠ 0); and at `TIMER_FREQ = 100` the
load-average hook fires 4 times — not once — in the 400-tick window
`[1, 401)`. -/
theorem C1_counterexample :
    ((19 : ℤ) % 19 = 0 ∧ Ev.fb_loadavg ∉ tickEvents 19 true 19) ∧
    ((Finset.Ico (1 : ℤ) 401).filter
        (fun x => Ev.fb_loadavg ∈ tickEvents 100 true x)).card = 4 := by
  exact ⟨⟨by decide, by decide⟩, by decide⟩

/-- Claim C1 (amended): with the mlfqs flag active, the priority-recompute
hook fires exactly when `t % 4 == 0`, while the load-average and full
recompute hooks fire exactly when `t % 4 == 0` AND `t % F == 0` (the checks
are nested); in the shared tick the hooks run in the order load-average
then full-recompute; over any window of `4 * F` consecutive ticks the
priority hook fires exactly `F` times and the load-average/full hooks fire
exactly `gcd 4 F` times. -/
theorem C1_amended (F : ℤ) (hF : 0 < F) (t a : ℤ) :
    (Ev.fb_prio ∈ tickEvents F true t ↔ t % 4 = 0) ∧
    (Ev.fb_loadavg ∈ tickEvents F true t ↔ (t % 4 = 0 ∧ t % F = 0)) ∧
    (Ev.fb_recalc ∈ tickEvents F true t ↔ (t % 4 = 0 ∧ t % F = 0)) ∧
    (t % 4 = 0 → t % F = 0 →
      tickEvents F true t =
        [Ev.tick_acct, Ev.fb_inc, Ev.fb_prio, Ev.fb_loadavg, Ev.fb_recalc,
         Ev.awake t]) ∧
    ((Finset.Ico a (a + 4 * F)).filter
        (fun x => Ev.fb_prio ∈ tickEvents F true x)).card = F.toNat ∧
    ((Finset.Ico a (a + 4 * F)).filter
        (fun x => Ev.fb_loadavg ∈ tickEvents F true x)).card = Int.gcd 4 F := by
  refine ⟨mem_tickEvents_prio F t, mem_tickEvents_loadavg F t,
    mem_tickEvents_recalc F t, ?_, ?_, ?_⟩
  · intro h4 hf
    unfold tickEvents timer_interrupt
    simp only [sub_add_cancel]
    simp [h4, hf]
  · have e1 : (Finset.Ico a (a + 4 * F)).filter
        (fun x => Ev.fb_prio ∈ tickEvents F true x)
        = (Finset.Ico a (a + 4 * F)).filter (fun x => (4 : ℤ) ∣ x) := by
      apply Finset.filter_congr
      intro x _
      rw [mem_tickEvents_prio]
      exact Int.dvd_iff_emod_eq_zero.symm
    have h4F : (4 : ℤ) * F = 4 * (F.toNat : ℤ) := by omega
    rw [e1, h4F]
    exact card_dvd_window 4 (by norm_num) F.toNat a
  · have e2 : (Finset.Ico a (a + 4 * F)).filter
        (fun x => Ev.fb_loadavg ∈ tickEvents F true x)
        = (Finset.Ico a (a + 4 * F)).filter
            (fun x => ((Int.lcm 4 F : ℤ)) ∣ x) := by
      apply Finset.filter_congr
      intro x _
      rw [mem_tickEvents_loadavg]
      rw [show (x % 4 = 0 ∧ x % F = 0) ↔ ((4 : ℤ) ∣ x ∧ F ∣ x) from
        and_congr Int.dvd_iff_emod_eq_zero.symm Int.dvd_iff_emod_eq_zero.symm]
      exact dvd_both_iff_lcm F x
    have hlen : (4 : ℤ) * F = (Int.lcm 4 F : ℤ) * ((Int.gcd 4 F : ℕ) : ℤ) :=
      four_mul_eq_lcm_mul_gcd F hF
    rw [e2, hlen]
    exact card_dvd_window _ (lcm_pos_int F hF) (Int.gcd 4 F) a

/-- Claim C1 amended witness at `F = 100`, window `[1, 401)`. -/
theorem C1_amended_witness :
    (Ev.fb_prio ∈ tickEvents 100 true 400 ↔ (400 : ℤ) % 4 = 0) ∧
    (400 : ℤ) % 4 = 0 :=
  ⟨(C1_amended 100 (by norm_num) 400 1).1, by decide⟩

/-- Claim C3 counterexample: under the oracle `tml9` the code keeps the
NINTH bit below the high bit (`1024 >> 9 = 2`), producing 1026, whereas
refining only "the next 8 lower bits", as the claim words it, would
produce 1024. -/
theorem C3_counterexample :
    timer_calibrate true tml9 = some 1026 ∧
    timer_calibrate_claim8 true tml9 = some 1024 ∧
    timer_calibrate true tml9 ≠ timer_calibrate_claim8 true tml9 := by
  exact ⟨by decide, by decide, by decide⟩

/-- Claim C3 (amended): `timer_calibrate` starts `loops_per_tick` at
`2^10 = 1 << 10`; the doubling phase doubles it (mod `2^32`) while
`too_many_loops (loops_per_tick << 1)` is false, stopping with the current
value once that test succeeds and dying on the fatal assertion when the
doubling wraps to zero (first three conjuncts); the high bit it stops on is
a power of two `2^k`, `10 ≤ k ≤ 31`, and the refinement phase then tests
adding each of the next NINE lower bits (positions 1 through 9 below the
high bit) one at a time, keeping a bit exactly when adding it to the high
bit still fits within one tick (last conjunct, via `calibRefineSpec`). -/
theorem C3_amended (tml : ℕ → Bool) :
    (∀ fuel lpt, tml ((lpt <<< 1) % 2 ^ 32) = true →
        calibDouble tml (fuel + 1) lpt = some lpt) ∧
    (∀ fuel lpt, tml ((lpt <<< 1) % 2 ^ 32) = false → (lpt <<< 1) % 2 ^ 32 = 0 →
        calibDouble tml (fuel + 1) lpt = none) ∧
    (∀ fuel lpt, tml ((lpt <<< 1) % 2 ^ 32) = false → (lpt <<< 1) % 2 ^ 32 ≠ 0 →
        calibDouble tml (fuel + 1) lpt = calibDouble tml fuel ((lpt <<< 1) % 2 ^ 32)) ∧
    (calibDouble tml 32 (1 <<< 10) = none → timer_calibrate true tml = none) ∧
    (∀ hb, calibDouble tml 32 (1 <<< 10) = some hb →
      (∃ k, 10 ≤ k ∧ k ≤ 31 ∧ hb = 2 ^ k) ∧
      timer_calibrate true tml = some (calibRefineSpec tml hb)) := by
  have h110 : (1 <<< 10 : ℕ) = 2 ^ 10 := by decide
  refine ⟨?_, ?_, ?_, ?_, ?_⟩
  · intro fuel lpt h
    rw [calibDouble_succ, if_pos h]
  · intro fuel lpt h h0
    rw [calibDouble_succ, if_neg (by rw [h]; exact Bool.false_ne_true), if_pos h0]
  · intro fuel lpt h h0
    rw [calibDouble_succ, if_neg (by rw [h]; exact Bool.false_ne_true), if_neg h0]
  · intro hnone
    unfold timer_calibrate
    rw [if_neg (by simp), hnone]
  · intro hb hsome
    rw [h110] at hsome
    rcases calibDouble_pow tml 32 10 (by omega) (by omega) (by omega) with
      hnone | ⟨k, hk10, hk31, hsk⟩
    · rw [hnone] at hsome
      exact absurd hsome (by simp)
    · rw [hsk] at hsome
      have hbk : hb = 2 ^ k := by
        injection hsome with h
        omega
      subst hbk
      refine ⟨⟨k, hk10, hk31, rfl⟩, ?_⟩
      have hmain : timer_calibrate true tml
          = some (calibRefine tml (2 ^ k) 32 (2 ^ k) ((2 ^ k) >>> 1)) := by
        simp only [timer_calibrate]
        rw [if_neg (by simp), h110, hsk]
      rw [hmain]
      have hrefine := calibRefine_eq_spec tml k hk10 9 (by omega) (2 ^ k) 32 (by omega)
      have h1 : (10 : ℕ) - 9 = 1 := by omega
      rw [h1] at hrefine
      rw [hrefine]
      rfl

/-- Claim C3 amended witness: under `tml9` the doubling phase stops at
`1024 = 2^10` and the result is the nine-bit refinement of 1024. -/
theorem C3_amended_witness :
    (∃ k, 10 ≤ k ∧ k ≤ 31 ∧ (1024 : ℕ) = 2 ^ k) ∧
    timer_calibrate true tml9 = some (calibRefineSpec tml9 1024) :=
  (C3_amended tml9).2.2.2.2 1024 (by decide)

end Timer
